import Mathlib

/-!
Verification of the particle force/integration engine of the Physics-Engine
repository, by shallow embedding of its C sources into Lean 4.

Conventions of the embedding:
* the C `real` type (a `float`) is modelled by the real numbers `ℝ`;
  `sqrtf` becomes `Real.sqrt` and the C library `pow` called by the
  integrators is passed in as an explicit function argument `pow`;
* C functions that mutate a structure through a pointer become pure
  functions returning the updated value; a function that both returns a
  `ParticleError` and mutates its argument returns a pair
  `(ParticleError × _)` whose second component is the (possibly unchanged)
  argument;
* null-pointer checks on arguments that the embedding passes by value
  (`!particle`, `!force`) are dropped, since a Lean value cannot be null;
  parameter blocks whose null-ness is semantically meaningful are passed
  as `Option` values, and the force laws' `!parameters` check becomes a
  `match` on the option;
* `malloc`/`realloc` failure paths and the `rand()` source of `uniqueID`
  are modelled by taking the success path and an explicit `uid` argument;
* the padding component of the C `Vector` carries no semantics (the
  spec calls it implementation-only) and is omitted.
-/

namespace Engine

/-- The 3-component vector of `src/vector.h` (padding omitted). -/
structure Vector where
  x : ℝ
  y : ℝ
  z : ℝ

/-- The `vectorDef` constructor macro of `src/vector.h`. -/
def vectorDef (vx vy vz : ℝ) : Vector := ⟨vx, vy, vz⟩

/-- The `nullVectorDef` macro of `src/vector.h`. -/
def nullVectorDef : Vector := ⟨0, 0, 0⟩

/-- The `magnitude` macro of `src/vector.h`:
`sqrt(x*x + y*y + z*z)`. -/
noncomputable def magnitude (v : Vector) : ℝ :=
  Real.sqrt (v.x * v.x + v.y * v.y + v.z * v.z)

/-- The `squaredMagnitude` macro of `src/vector.h`. -/
def squaredMagnitude (v : Vector) : ℝ :=
  v.x * v.x + v.y * v.y + v.z * v.z

/-- The `dotProduct` macro of `src/vector.h`. -/
def dotProduct (a b : Vector) : ℝ :=
  a.x * b.x + a.y * b.y + a.z * b.z

/-- `invert` of `src/vector.h`: negate all components. -/
def invert (v : Vector) : Vector := ⟨-v.x, -v.y, -v.z⟩

/-- `scale` of `src/vector.h`: multiply every component by `scalar`. -/
def scale (v : Vector) (scalar : ℝ) : Vector :=
  ⟨v.x * scalar, v.y * scalar, v.z * scalar⟩

/-- `normalize` of `src/vector.h`: scale by `1/magnitude` when the
magnitude is positive, otherwise leave the vector unchanged. -/
noncomputable def normalize (v : Vector) : Vector :=
  if magnitude v > 0 then scale v (1 / magnitude v) else v

/-- `addScaled` of `src/vector.h`:
`dest = dest * scalarOne + src * scalarTwo` (computed, as in the source,
by scaling a copy of `src`, scaling `dest` in place, and adding). -/
def addScaled (vectorDest vectorSrc : Vector) (scalarOne scalarTwo : ℝ) : Vector :=
  let scaledVector := scale vectorSrc scalarTwo
  let dest := scale vectorDest scalarOne
  ⟨dest.x + scaledVector.x, dest.y + scaledVector.y, dest.z + scaledVector.z⟩

/-- `vecAdd` of `src/vector.h`: componentwise addition into `dest`. -/
def vecAdd (vectorDest vectorSrc : Vector) : Vector :=
  ⟨vectorDest.x + vectorSrc.x, vectorDest.y + vectorSrc.y, vectorDest.z + vectorSrc.z⟩

/-- `componentProduct` of `src/vector.h`. -/
def componentProduct (vectorDest vectorSrc : Vector) : Vector :=
  ⟨vectorDest.x * vectorSrc.x, vectorDest.y * vectorSrc.y, vectorDest.z * vectorSrc.z⟩

/-- `crossProduct` of `src/vector.h` (result overwrites `dest`). -/
def crossProduct (vectorDest vectorSrc : Vector) : Vector :=
  ⟨vectorDest.y * vectorSrc.z - vectorDest.z * vectorSrc.y,
   vectorDest.z * vectorSrc.x - vectorDest.x * vectorSrc.z,
   vectorDest.x * vectorSrc.y - vectorDest.y * vectorSrc.x⟩

namespace Core

/-- `scale` of `src/core.h`. The source reads
`vector->x *= vector->x * scalar;` (and likewise for y, z), i.e. each
component is multiplied by (that component times the scalar), not by the
scalar alone. -/
def scale (v : Vector) (scalar : ℝ) : Vector :=
  ⟨v.x * (v.x * scalar), v.y * (v.y * scalar), v.z * (v.z * scalar)⟩

/-- `normalize` of `src/core.h`: same guard as `vector.h`, but calling
the `core.h` variant of `scale`. The `magnitude` macro of `core.h` is
textually identical to the one in `vector.h` and is shared. -/
noncomputable def normalize (v : Vector) : Vector :=
  if magnitude v > 0 then Core.scale v (1 / magnitude v) else v

/-- `addScaled` of `src/core.h` (three-argument form), built on the
`core.h` variant of `scale`. -/
def addScaled (vectorDest vectorSrc : Vector) (scalar : ℝ) : Vector :=
  let scaledVector := Core.scale vectorSrc scalar
  ⟨vectorDest.x + scaledVector.x, vectorDest.y + scaledVector.y,
   vectorDest.z + scaledVector.z⟩

end Core

/- Basic algebraic facts about the vector kernel, shared by the proofs
below. -/

theorem scale_zero (v : Vector) : scale v 0 = nullVectorDef := by
  simp [scale, nullVectorDef]

theorem scale_one (v : Vector) : scale v 1 = v := by
  simp [scale]

theorem vecAdd_null (v : Vector) : vecAdd v nullVectorDef = v := by
  simp [vecAdd, nullVectorDef]

theorem null_vecAdd (v : Vector) : vecAdd nullVectorDef v = v := by
  simp [vecAdd, nullVectorDef]

theorem vecAdd_invert_self (v : Vector) : vecAdd v (invert v) = nullVectorDef := by
  simp [vecAdd, invert, nullVectorDef]

theorem dotProduct_null_right (v : Vector) : dotProduct v nullVectorDef = 0 := by
  simp [dotProduct, nullVectorDef]

theorem dotProduct_null_left (v : Vector) : dotProduct nullVectorDef v = 0 := by
  simp [dotProduct, nullVectorDef]

theorem dotProduct_scale_left (v w : Vector) (s : ℝ) :
    dotProduct (scale v s) w = s * dotProduct v w := by
  simp [dotProduct, scale]; ring

theorem dotProduct_self (v : Vector) :
    dotProduct v v = v.x * v.x + v.y * v.y + v.z * v.z := rfl

theorem magnitude_nonneg (v : Vector) : 0 ≤ magnitude v := Real.sqrt_nonneg _

theorem magnitude_pos_iff (v : Vector) :
    0 < magnitude v ↔ 0 < v.x * v.x + v.y * v.y + v.z * v.z := by
  unfold magnitude
  exact Real.sqrt_pos

theorem addScaled_null_src (dest : Vector) (s t : ℝ) :
    addScaled dest nullVectorDef s t = scale dest s := by
  simp [addScaled, scale, nullVectorDef]

theorem addScaled_one (dest src : Vector) (t : ℝ) :
    addScaled dest src 1 t = vecAdd dest (scale src t) := by
  simp [addScaled, scale, vecAdd]

/-! ## Particle data model (`src/src/particle_forces.h`, `particle_common.h`) -/

/-- The `ParticleError` enumeration of `particle_common.h`. -/
inductive ParticleError where
  | PARTICLE_SUCCESS
  | PARTICLE_ERROR_MEMORY
  | PARTICLE_ERROR_INVALID_PARAM
  | PARTICLE_ERROR_INVALID_MASS
  | PARTICLE_ERROR_INVALID_DAMPING
  | PARTICLE_ERROR_INVALID_TIME
  | PARTICLE_ERROR_INVALID_SPRING_CONSTANT
  | PARTICLE_ERROR_INVALID_REST_LENGTH
  | PARTICLE_ERROR_INVALID_DAMPING_COEFF
  | PARTICLE_ERROR_NULL_SPRING_OTHER
  | PARTICLE_ERROR_INVALID_DRAG_COEFFS
  | PARTICLE_ERROR_INVALID_FORCE_ID
  | PARTICLE_ERROR_INVALID_DURATION
deriving DecidableEq

/-- The `ForceIdentifier` enumeration of `particle_common.h`.  In the C
source `GRAV = 1` and the members count up from there, so
`TOTAL_TYPES = 6` and `ANCHORED_BUNGEE`, declared after it, has value 7. -/
inductive ForceIdentifier where
  | GRAV
  | DRAG
  | SPRING
  | ANCHORED_SPRING
  | BUNGEE
  | TOTAL_TYPES
  | ANCHORED_BUNGEE
deriving DecidableEq

/-- The integer value of each `ForceIdentifier` member, as assigned by the
C enumeration (`GRAV = 1`, ..., `TOTAL_TYPES = 6`, `ANCHORED_BUNGEE = 7`). -/
def idVal : ForceIdentifier → ℕ
  | .GRAV => 1
  | .DRAG => 2
  | .SPRING => 3
  | .ANCHORED_SPRING => 4
  | .BUNGEE => 5
  | .TOTAL_TYPES => 6
  | .ANCHORED_BUNGEE => 7

/-- `ACC_DUE_TO_GRAV` of `particle_common.h`. -/
noncomputable def ACC_DUE_TO_GRAV : ℝ := -9.81

/-- `N_STEPS` of `particle_common.h`: the fixed sub-step count of the
Euler integrator. -/
def N_STEPS : ℕ := 100

/-- The per-particle kinematic state: the fields of `struct Particle`
except the force registry.  The C force laws receive `const Particle *`
but read only these fields, so in the embedding a force law is a function
of a `PState` (this also breaks the type-level recursion that a registry
of `Particle → Vector` closures would create). -/
structure PState where
  position : Vector
  velocity : Vector
  acceleration : Vector
  resultantForce : Vector
  inverseMass : ℝ
  damping : ℝ
  time : ℝ
  uniqueID : ℕ

/-- A force-evaluation function, `ForceFunction` of `particle_common.h`,
with its `void *parameters` block already closed over. -/
def ForceFn := PState → Vector

/-- `struct ForceGenerator` of `particle_common.h`.  The
`springNotAlreadyUsed`/`springForceVal` fields embed the
`notAlreadyUsed`/`forceVal` cache that the `particle.h` variant keeps in
the (shared) `SpringParameters` block; `buildSpringParameters` there
starts them at `false` / the zero vector. -/
structure ForceGenerator where
  function : ForceFn
  identity : ForceIdentifier
  startTime : ℝ
  endTime : ℝ
  isActive : Bool
  springNotAlreadyUsed : Bool
  springForceVal : Vector

/-- `struct Particle` of `particle_common.h`.  `forceRegistry` and
`forceCount` are modelled by a single list (`forceCount` is its length);
`forceCapacity` is kept so that the capacity-doubling of `Particle_AddForce`
and the initial capacity 8 of `Particle_Create` stay visible. -/
structure Particle where
  position : Vector
  velocity : Vector
  acceleration : Vector
  resultantForce : Vector
  inverseMass : ℝ
  damping : ℝ
  time : ℝ
  forceRegistry : List ForceGenerator
  forceCapacity : ℕ
  uniqueID : ℕ

/-- The kinematic view of a particle passed to force laws. -/
def Particle.toPState (p : Particle) : PState :=
  ⟨p.position, p.velocity, p.acceleration, p.resultantForce,
   p.inverseMass, p.damping, p.time, p.uniqueID⟩

/-- `struct SpringParameters` of `particle_common.h` (also
`ElasticBungeeParameters`, a typedef of the same struct).  The
`particleA`/`particleB` pointers are embedded as the kinematic states they
point to. -/
structure SpringParameters where
  particleA : PState
  particleB : PState
  springConstant : ℝ
  dampingCoeff : ℝ
  restLength : ℝ

/-- `ElasticBungeeParameters` is a typedef of `SpringParameters`. -/
abbrev ElasticBungeeParameters := SpringParameters

/-- `struct AnchoredSpringParameters` of `particle_common.h` (also
`AnchoredBungeeParameters`, a typedef of the same struct). -/
structure AnchoredSpringParameters where
  anchor : Vector
  springConstant : ℝ
  dampingCoeff : ℝ
  restLength : ℝ

/-- `AnchoredBungeeParameters` is a typedef of `AnchoredSpringParameters`. -/
abbrev AnchoredBungeeParameters := AnchoredSpringParameters

/-- `struct DragCoefficients` of `particle_common.h`. -/
structure DragCoefficients where
  linear : ℝ
  quadratic : ℝ

/-! ## Accessors (`particle_common.h`) -/

/-- `Particle_IsStatic`: reports whether the inverse mass is exactly
zero.  (The null-pointer checks of the C function cannot fire in the
embedding.) -/
noncomputable def Particle_IsStatic (p : Particle) : Bool :=
  decide (p.inverseMass = 0)

/-- `Particle_GetMass` result for a non-static particle:
`1.0 / inverseMass`.  The C function stores `INFINITY` when
`inverseMass == 0`; `ℝ` has no infinity, and every caller in scope
(the gravity law) guards with `Particle_IsStatic` first, so the embedding
only represents the finite branch. -/
noncomputable def Particle_GetMass (p : PState) : ℝ := 1 / p.inverseMass

/-- `Particle_SetMass`: rejects `mass ≤ 0` with `InvalidMass`, otherwise
stores the inverse. Returns the error code and the (possibly unchanged)
particle. -/
noncomputable def Particle_SetMass (p : Particle) (mass : ℝ) :
    ParticleError × Particle :=
  if mass ≤ 0 then (.PARTICLE_ERROR_INVALID_MASS, p)
  else (.PARTICLE_SUCCESS, { p with inverseMass := 1 / mass })

/-- `Particle_ClearForces`: resets the resultant force and empties the
registry (`forceCount = 0`); capacity is untouched. -/
def Particle_ClearForces (p : Particle) : Particle :=
  { p with resultantForce := nullVectorDef, forceRegistry := [] }

/-- `Particle_Create` of `particle_forces.h` (lines 587-638): validates
mass, damping and start time in that order and otherwise returns a fresh
particle with empty registry of capacity 8, zero resultant force and
`inverseMass = 1/mass`.  `malloc` failures are not modelled; `rand()` is
replaced by the explicit `uid` argument. -/
noncomputable def Particle_Create (position velocity acceleration : Vector)
    (mass damping startTime : ℝ) (uid : ℕ) : Except ParticleError Particle :=
  if mass ≤ 0 then .error .PARTICLE_ERROR_INVALID_MASS
  else if damping < 0 ∨ damping > 1 then .error .PARTICLE_ERROR_INVALID_DAMPING
  else if startTime < 0 then .error .PARTICLE_ERROR_INVALID_TIME
  else .ok
    { position := position
      velocity := velocity
      acceleration := acceleration
      resultantForce := nullVectorDef
      inverseMass := 1 / mass
      damping := damping
      time := startTime
      forceRegistry := []
      forceCapacity := 8
      uniqueID := uid }

/-! ## Force laws (`src/src/particle_forces.h`) -/

/-- `Particle_GravityForce`: zero for a static particle (the C code also
sets `particleErrno` there), otherwise `(0, g·m, 0)` with `m` obtained
from `Particle_GetMass`. -/
noncomputable def Particle_GravityForce (particle : PState) : Vector :=
  if particle.inverseMass = 0 then nullVectorDef
  else vectorDef 0 (ACC_DUE_TO_GRAV * Particle_GetMass particle) 0

/-- `Particle_DragForce`: zero below the `0.01` speed threshold, otherwise
`-(k1·|v| + k2·|v|²) · v̂`.  A null parameter block gives the zero
vector. -/
noncomputable def Particle_DragForce (particle : PState)
    (dragParameters : Option DragCoefficients) : Vector :=
  match dragParameters with
  | none => nullVectorDef
  | some coeffs =>
    let velocityMag := magnitude particle.velocity
    if velocityMag < 0.01 then nullVectorDef
    else
      scale (invert (normalize particle.velocity))
        (coeffs.linear * velocityMag + coeffs.quadratic * velocityMag * velocityMag)

/-- The "other" side of a two-body spring/bungee, resolved as in the C
source by comparing `particleA`'s unique ID with the queried particle's. -/
def springOtherPosition (particle : PState) (param : SpringParameters) : Vector :=
  if param.particleA.uniqueID = particle.uniqueID then param.particleB.position
  else param.particleA.position

/-- The "other" side's velocity, resolved like `springOtherPosition`. -/
def springOtherVelocity (particle : PState) (param : SpringParameters) : Vector :=
  if param.particleA.uniqueID = particle.uniqueID then param.particleB.velocity
  else param.particleA.velocity

/-- `Particle_SpringForce` (lines 60-101 of `particle_forces.h`).
With `d = position − otherPosition` and `relVel = velocity − otherVelocity`
the returned force is `d̂ · (-k·(|d| − restLength) − c·(d·relVel)/|d|)`. -/
noncomputable def Particle_SpringForce (particle : PState)
    (springParameters : Option SpringParameters) : Vector :=
  match springParameters with
  | none => nullVectorDef
  | some param =>
    let otherPos := invert (springOtherPosition particle param)
    let otherVel := invert (springOtherVelocity particle param)
    let partVel := vecAdd particle.velocity otherVel
    let force := vecAdd particle.position otherPos
    let forceMagnitude :=
      -param.springConstant * (magnitude force - param.restLength) -
        param.dampingCoeff * (dotProduct force partVel / magnitude force)
    scale (normalize force) forceMagnitude

/-- `Particle_AnchoredSpringForce` (lines 103-126): the spring law with
the fixed anchor in place of the other particle and the particle's own
velocity in the damping term. -/
noncomputable def Particle_AnchoredSpringForce (particle : PState)
    (anchoredSpringParameters : Option AnchoredSpringParameters) : Vector :=
  match anchoredSpringParameters with
  | none => nullVectorDef
  | some params =>
    let anchorPos := invert params.anchor
    let force := vecAdd particle.position anchorPos
    let forceMagnitude :=
      -params.springConstant * (magnitude force - params.restLength) -
        params.dampingCoeff * (dotProduct force particle.velocity / magnitude force)
    scale (normalize force) forceMagnitude

/-- `Particle_ElasticBungeeForce` (lines 128-176): like the spring law but
returning the zero vector as soon as the extension
`|d| − restLength` is `≤ 0`. -/
noncomputable def Particle_ElasticBungeeForce (particle : PState)
    (elasticBungeeParameters : Option ElasticBungeeParameters) : Vector :=
  match elasticBungeeParameters with
  | none => nullVectorDef
  | some param =>
    let otherPos := invert (springOtherPosition particle param)
    let otherVel := invert (springOtherVelocity particle param)
    let partVel := vecAdd particle.velocity otherVel
    let force := vecAdd particle.position otherPos
    let newLen := magnitude force - param.restLength
    if newLen ≤ 0 then nullVectorDef
    else
      scale (normalize force)
        (-param.springConstant * newLen -
          param.dampingCoeff * (dotProduct force partVel / magnitude force))

/-- `Particle_AnchoredBungeeForce` (lines 178-211): the anchored spring
law with the same extension-only guard as the elastic bungee. -/
noncomputable def Particle_AnchoredBungeeForce (particle : PState)
    (anchoredBungeeParameters : Option AnchoredBungeeParameters) : Vector :=
  match anchoredBungeeParameters with
  | none => nullVectorDef
  | some params =>
    let anchorPos := invert params.anchor
    let force := vecAdd particle.position anchorPos
    let length := magnitude force
    let extension := length - params.restLength
    if extension ≤ 0 then nullVectorDef
    else
      scale (normalize force)
        (-params.springConstant * extension -
          params.dampingCoeff * (dotProduct force particle.velocity / length))

/-! ## Force registration (`src/src/particle_addForces.h`) -/

/-- `Particle_AddForce` (lines 16-57): validates the time window and the
law identity (`identifier < 1 || identifier >= TOTAL_TYPES`), doubles the
capacity when the registry is full (the `realloc` failure path is not
modelled), and appends a new active registration.  The C `void *parameters`
pointer is closed over inside `force`; the `!particle || !force` null
checks cannot fire in the embedding. -/
noncomputable def Particle_AddForce (particle : Particle) (force : ForceFn)
    (startTime endTime : ℝ) (identifier : ForceIdentifier) :
    ParticleError × Particle :=
  if startTime < 0 ∨ endTime < 0 then (.PARTICLE_ERROR_INVALID_TIME, particle)
  else if idVal identifier < 1 ∨ idVal identifier ≥ idVal .TOTAL_TYPES then
    (.PARTICLE_ERROR_INVALID_FORCE_ID, particle)
  else
    let grown :=
      if particle.forceRegistry.length ≥ particle.forceCapacity then
        { particle with forceCapacity := particle.forceCapacity * 2 }
      else particle
    (.PARTICLE_SUCCESS,
      { grown with forceRegistry := grown.forceRegistry ++
          [{ function := force, identity := identifier,
             startTime := startTime, endTime := endTime, isActive := true,
             springNotAlreadyUsed := false, springForceVal := nullVectorDef }] })

/-- `Particle_AddAnchoredSpring` (lines 88-95).  The C guard reads
`if (!particle || anchoredSpringParameters)` — note the missing `!` on the
parameter block — so a **non-null** parameter block is rejected with
`INVALID_PARAM`, and a null one is registered. -/
noncomputable def Particle_AddAnchoredSpring (particle : Particle) (anchor : Vector)
    (anchoredSpringParameters : Option AnchoredSpringParameters)
    (startTime endTime : ℝ) : ParticleError × Particle :=
  if anchoredSpringParameters.isSome then (.PARTICLE_ERROR_INVALID_PARAM, particle)
  else
    Particle_AddForce particle
      (fun ps => Particle_AnchoredSpringForce ps anchoredSpringParameters)
      startTime endTime .ANCHORED_SPRING

/-- `Particle_AddAnchoredBungee` (lines 108-118): null checks, then
registration under the `ANCHORED_BUNGEE` identity (= 7, which
`Particle_AddForce` rejects as `>= TOTAL_TYPES`). -/
noncomputable def Particle_AddAnchoredBungee (particle : Particle) (anchor : Vector)
    (anchoredBungeeParameters : Option AnchoredBungeeParameters)
    (startTime endTime : ℝ) : ParticleError × Particle :=
  if anchoredBungeeParameters.isNone then (.PARTICLE_ERROR_INVALID_PARAM, particle)
  else
    Particle_AddForce particle
      (fun ps => Particle_AnchoredBungeeForce ps anchoredBungeeParameters)
      startTime endTime .ANCHORED_BUNGEE

/-! ## The sub-stepped semi-implicit Euler integrator
(`src/unnamed/part_003`, `Particle_EulerIntegrate`) -/

/-- The force-accumulation inner loop of `Particle_EulerIntegrate`
(lines 46-59): every active registration whose `[startTime, endTime]`
window contains the particle's current time has its law evaluated once and
the result added to `resultantForce`.  The evolving particle (with the
partially accumulated `resultantForce`) is what each call sees, as in C. -/
noncomputable def accumulateForces : Particle → List ForceGenerator → Particle
  | p, [] => p
  | p, g :: gs =>
    if g.isActive = true ∧ g.startTime ≤ p.time ∧ p.time ≤ g.endTime then
      accumulateForces
        { p with resultantForce := vecAdd p.resultantForce (g.function p.toPState) }
        gs
    else accumulateForces p gs

/-- One sub-step of `Particle_EulerIntegrate` (lines 38-81): position
update, force accumulation, acceleration update (skipped when static),
damped velocity update with `dampingFactor = pow(damping, dt)`, then reset
of the resultant force, time advance by `dt` and reset of the
acceleration.  The C library `pow` is the explicit argument `pow`. -/
noncomputable def Particle_EulerSubstep (pow : ℝ → ℝ → ℝ) (dt : ℝ)
    (p : Particle) : Particle :=
  let p1 := { p with position := addScaled p.position p.velocity 1 dt }
  let p2 := accumulateForces p1 p1.forceRegistry
  let accFromForce := scale p2.resultantForce p2.inverseMass
  let p3 :=
    if p2.inverseMass = 0 then p2
    else { p2 with acceleration := vecAdd p2.acceleration accFromForce }
  let dampingFactor := pow p3.damping dt
  let p4 := { p3 with velocity := addScaled p3.velocity p3.acceleration dampingFactor dt }
  let p5 := { p4 with resultantForce := nullVectorDef }
  let p6 := { p5 with time := p5.time + dt }
  { p6 with acceleration := nullVectorDef }

/-- The `for (i = 0; i < N_STEPS; i++)` loop of `Particle_EulerIntegrate`. -/
noncomputable def eulerLoop (pow : ℝ → ℝ → ℝ) (dt : ℝ) :
    ℕ → Particle → Particle
  | 0, p => p
  | Nat.succ n, p => eulerLoop pow dt n (Particle_EulerSubstep pow dt p)

/-- `Particle_EulerIntegrate` (lines 17-84 of `src/unnamed/part_003`):
rejects `duration ≤ 0`, then runs `N_STEPS` equal sub-steps of length
`outDuration / N_STEPS`.  (The OpenMP thread-count call has no semantic
content; the mid-loop `Particle_IsStatic` error return cannot fire for a
by-value particle.) -/
noncomputable def Particle_EulerIntegrate (pow : ℝ → ℝ → ℝ) (p : Particle)
    (outDuration : ℝ) : Except ParticleError Particle :=
  if outDuration ≤ 0 then .error .PARTICLE_ERROR_INVALID_DURATION
  else .ok (eulerLoop pow (outDuration / (N_STEPS : ℝ)) N_STEPS p)

/-! ## The RK4 integrator (`src/unnamed/part_003`) -/

/-- `calculateK` (lines 86-123): sums the active in-window forces into a
local accumulator, returns zero for a static particle, otherwise the sum
scaled by `inverseMass * duration`. -/
noncomputable def calculateK (particle : Particle) (duration : ℝ) : Vector :=
  let totalForce :=
    particle.forceRegistry.foldl
      (fun tf g =>
        if g.isActive = true ∧ g.startTime ≤ particle.time ∧ particle.time ≤ g.endTime
        then vecAdd tf (g.function particle.toPState)
        else tf)
      nullVectorDef
  if particle.inverseMass = 0 then nullVectorDef
  else scale totalForce (particle.inverseMass * duration)

set_option maxHeartbeats 1000000 in
/-- `Particle_RKIntegrate` (lines 125-189): the four force/velocity
samples `k1..k4` taken at the step start, the two midpoints and the step
end, combined with weights 1/6, 2/6, 2/6, 1/6.  Each `let` mirrors one
statement of the C function. -/
noncomputable def Particle_RKIntegrate (particle : Particle) (duration : ℝ) :
    Except ParticleError Particle :=
  if duration ≤ 0 then .error .PARTICLE_ERROR_INVALID_DURATION
  else
    let initVel := particle.velocity
    let initPos := particle.position
    let x_k1 := scale particle.velocity duration
    let v_k1 := calculateK particle duration
    let p1 := { particle with time := particle.time + duration * 0.5 }
    let p2 := { p1 with position := addScaled p1.position initVel 1 (0.5 * duration) }
    let p3 := { p2 with velocity := addScaled p2.velocity v_k1 1 0.5 }
    let x_k2 := scale p3.velocity duration
    let v_k2 := calculateK p3 duration
    let p4 := { p3 with velocity := addScaled initVel v_k2 1 0.5 }
    let x_k3 := scale p4.velocity duration
    let v_k3 := calculateK p4 duration
    let p5 := { p4 with time := p4.time + duration * 0.5 }
    let p6 := { p5 with position := addScaled p5.position initVel 1 (0.5 * duration) }
    let p7 := { p6 with velocity := vecAdd initVel v_k3 }
    let x_k4 := scale p7.velocity duration
    let v_k4 := calculateK p7 duration
    let p8 := { p7 with position := initPos, velocity := initVel }
    let p9 := { p8 with velocity := addScaled p8.velocity v_k1 1 (1 / 6) }
    let p10 := { p9 with velocity := addScaled p9.velocity v_k2 1 (2 / 6) }
    let p11 := { p10 with velocity := addScaled p10.velocity v_k3 1 (2 / 6) }
    let p12 := { p11 with velocity := addScaled p11.velocity v_k4 1 (1 / 6) }
    let p13 := { p12 with position := addScaled p12.position x_k1 1 (1 / 6) }
    let p14 := { p13 with position := addScaled p13.position x_k2 1 (2 / 6) }
    let p15 := { p14 with position := addScaled p14.position x_k3 1 (2 / 6) }
    let p16 := { p15 with position := addScaled p15.position x_k4 1 (1 / 6) }
    .ok p16

/-! ## The single-step integrator variant of `src/src/particle.h`
(`Particle_Integrate`, lines 561-635), with its spring
cache-and-toggle mechanism. -/

namespace ParticleH

/-- The body applied to one qualifying (active, in-window) registration in
the loop of `particle.h`'s `Particle_Integrate` (lines 584-609).  For a
`SPRING` registration the cached opposite force is either replayed or the
law is evaluated and the cache toggled; for every other identity the law
is evaluated and added.  In **both** cases the two statements that follow
the if/else in the source (lines 608-609) then evaluate the law once more
and add that result as well. -/
def applyGenerator (p : Particle) (g : ForceGenerator) :
    Particle × ForceGenerator :=
  let first :=
    if g.identity = .SPRING then
      if g.springNotAlreadyUsed then
        ({ p with resultantForce := vecAdd p.resultantForce g.springForceVal },
         { g with springNotAlreadyUsed := false })
      else
        let force := g.function p.toPState
        ({ p with resultantForce := vecAdd p.resultantForce force },
         { g with springNotAlreadyUsed := true, springForceVal := invert force })
    else
      ({ p with resultantForce := vecAdd p.resultantForce (g.function p.toPState) }, g)
  let p1 := first.1
  let g1 := first.2
  let force := g1.function p1.toPState
  ({ p1 with resultantForce := vecAdd p1.resultantForce force }, g1)

/-- The registry loop of `particle.h`'s `Particle_Integrate`
(lines 575-611), threading the accumulating particle and returning the
registry with any updated spring caches. -/
noncomputable def forceLoop :
    Particle → List ForceGenerator → Particle × List ForceGenerator
  | p, [] => (p, [])
  | p, g :: gs =>
    if g.isActive = true ∧ g.startTime ≤ p.time ∧ p.time ≤ g.endTime then
      let step := applyGenerator p g
      let rest := forceLoop step.1 gs
      (rest.1, step.2 :: rest.2)
    else
      let rest := forceLoop p gs
      (rest.1, g :: rest.2)

/-- `Particle_Integrate` of `src/src/particle.h` (lines 561-635): a single
(not sub-stepped) semi-implicit Euler step with the spring
cache-and-toggle force loop, ending with the reset of the resultant force,
the time advance and the reset of the acceleration (lines 627-635). -/
noncomputable def Particle_Integrate (pow : ℝ → ℝ → ℝ) (particle : Particle)
    (duration : ℝ) : ParticleError × Particle :=
  if duration ≤ 0 then (.PARTICLE_ERROR_INVALID_DURATION, particle)
  else
    let newPos := addScaled particle.position particle.velocity 1 duration
    let p1 := { particle with position := newPos }
    let looped := forceLoop p1 p1.forceRegistry
    let p2 := looped.1
    let reg := looped.2
    let p3 := { p2 with forceRegistry := reg }
    let accFromForce := scale p3.resultantForce p3.inverseMass
    let p4 :=
      if p3.inverseMass = 0 then p3
      else { p3 with acceleration := vecAdd p3.acceleration accFromForce }
    let dampingFactor := pow p4.damping duration
    let newVel := addScaled p4.velocity p4.acceleration dampingFactor duration
    let p5 := { p4 with velocity := newVel }
    let p6 := { p5 with resultantForce := nullVectorDef }
    let p7 := { p6 with time := p6.time + duration }
    (.PARTICLE_SUCCESS, { p7 with acceleration := nullVectorDef })

end ParticleH

/-! ## Helper lemmas about the Euler integrator -/

/-- The force-accumulation loop only ever writes the `resultantForce`
field: all other particle fields survive it unchanged. -/
theorem accumulateForces_eq (gs : List ForceGenerator) (p : Particle) :
    ∃ F, accumulateForces p gs = { p with resultantForce := F } := by
  induction gs generalizing p with
  | nil => exact ⟨p.resultantForce, rfl⟩
  | cons g gs ih =>
    by_cases h : g.isActive = true ∧ g.startTime ≤ p.time ∧ p.time ≤ g.endTime
    · obtain ⟨F, hF⟩ :=
        ih { p with resultantForce := vecAdd p.resultantForce (g.function p.toPState) }
      exact ⟨F, by rw [accumulateForces, if_pos h, hF]⟩
    · obtain ⟨F, hF⟩ := ih p
      exact ⟨F, by rw [accumulateForces, if_neg h, hF]⟩

theorem accumulateForces_position (gs : List ForceGenerator) (p : Particle) :
    (accumulateForces p gs).position = p.position := by
  obtain ⟨F, hF⟩ := accumulateForces_eq gs p; rw [hF]

theorem accumulateForces_velocity (gs : List ForceGenerator) (p : Particle) :
    (accumulateForces p gs).velocity = p.velocity := by
  obtain ⟨F, hF⟩ := accumulateForces_eq gs p; rw [hF]

theorem accumulateForces_acceleration (gs : List ForceGenerator) (p : Particle) :
    (accumulateForces p gs).acceleration = p.acceleration := by
  obtain ⟨F, hF⟩ := accumulateForces_eq gs p; rw [hF]

theorem accumulateForces_inverseMass (gs : List ForceGenerator) (p : Particle) :
    (accumulateForces p gs).inverseMass = p.inverseMass := by
  obtain ⟨F, hF⟩ := accumulateForces_eq gs p; rw [hF]

theorem accumulateForces_damping (gs : List ForceGenerator) (p : Particle) :
    (accumulateForces p gs).damping = p.damping := by
  obtain ⟨F, hF⟩ := accumulateForces_eq gs p; rw [hF]

theorem accumulateForces_time (gs : List ForceGenerator) (p : Particle) :
    (accumulateForces p gs).time = p.time := by
  obtain ⟨F, hF⟩ := accumulateForces_eq gs p; rw [hF]

theorem accumulateForces_forceRegistry (gs : List ForceGenerator) (p : Particle) :
    (accumulateForces p gs).forceRegistry = p.forceRegistry := by
  obtain ⟨F, hF⟩ := accumulateForces_eq gs p; rw [hF]

/-- An Euler sub-step always ends by zeroing the resultant force and the
acceleration, advancing the local clock by `dt`, and leaving the inverse
mass, damping and force registry unchanged. -/
theorem eulerSubstep_fields (pow : ℝ → ℝ → ℝ) (dt : ℝ) (p : Particle) :
    (Particle_EulerSubstep pow dt p).time = p.time + dt ∧
    (Particle_EulerSubstep pow dt p).acceleration = nullVectorDef ∧
    (Particle_EulerSubstep pow dt p).resultantForce = nullVectorDef ∧
    (Particle_EulerSubstep pow dt p).inverseMass = p.inverseMass ∧
    (Particle_EulerSubstep pow dt p).damping = p.damping ∧
    (Particle_EulerSubstep pow dt p).forceRegistry = p.forceRegistry := by
  simp only [Particle_EulerSubstep]
  by_cases h : p.inverseMass = 0 <;>
    simp [h, accumulateForces_inverseMass, accumulateForces_time,
      accumulateForces_damping, accumulateForces_forceRegistry]

/-- A static particle that starts a sub-step with zero velocity and zero
acceleration ends it with zero velocity, zero acceleration and an
unchanged position, whatever forces are registered. -/
theorem eulerSubstep_static (pow : ℝ → ℝ → ℝ) (dt : ℝ) (p : Particle)
    (h0 : p.inverseMass = 0) (hv : p.velocity = nullVectorDef)
    (ha : p.acceleration = nullVectorDef) :
    (Particle_EulerSubstep pow dt p).velocity = nullVectorDef ∧
    (Particle_EulerSubstep pow dt p).position = p.position := by
  simp only [Particle_EulerSubstep]
  simp [h0, accumulateForces_inverseMass, accumulateForces_velocity,
    accumulateForces_acceleration, accumulateForces_position,
    accumulateForces_damping, hv, ha, addScaled, scale, nullVectorDef]

/-- Time advance of the Euler loop: `n` sub-steps advance the clock by
exactly `n * dt`. -/
theorem eulerLoop_time (pow : ℝ → ℝ → ℝ) (dt : ℝ) :
    ∀ (n : ℕ) (p : Particle),
      (eulerLoop pow dt n p).time = p.time + n * dt := by
  intro n
  induction n with
  | zero => intro p; simp [eulerLoop]
  | succ n ih =>
    intro p
    rw [eulerLoop, ih, (eulerSubstep_fields pow dt p).1]
    push_cast
    ring

/-- The inverse mass is untouched by the Euler loop. -/
theorem eulerLoop_inverseMass (pow : ℝ → ℝ → ℝ) (dt : ℝ) :
    ∀ (n : ℕ) (p : Particle),
      (eulerLoop pow dt n p).inverseMass = p.inverseMass := by
  intro n
  induction n with
  | zero => intro p; simp [eulerLoop]
  | succ n ih =>
    intro p
    rw [eulerLoop, ih, (eulerSubstep_fields pow dt p).2.2.2.1]

/-- After at least one Euler sub-step, the resultant force and the
acceleration are both the zero vector. -/
theorem eulerLoop_resets (pow : ℝ → ℝ → ℝ) (dt : ℝ) :
    ∀ (n : ℕ) (p : Particle),
      (eulerLoop pow dt (n + 1) p).acceleration = nullVectorDef ∧
      (eulerLoop pow dt (n + 1) p).resultantForce = nullVectorDef := by
  intro n
  induction n with
  | zero =>
    intro p
    rw [eulerLoop, eulerLoop]
    exact ⟨(eulerSubstep_fields pow dt p).2.1, (eulerSubstep_fields pow dt p).2.2.1⟩
  | succ n ih =>
    intro p
    rw [eulerLoop]
    exact ih _

/-- The static zero-state invariant propagated through the whole Euler
loop. -/
theorem eulerLoop_static_zero (pow : ℝ → ℝ → ℝ) (dt : ℝ) :
    ∀ (n : ℕ) (p : Particle), p.inverseMass = 0 →
      p.velocity = nullVectorDef → p.acceleration = nullVectorDef →
      (eulerLoop pow dt n p).velocity = nullVectorDef ∧
      (eulerLoop pow dt n p).position = p.position ∧
      (eulerLoop pow dt n p).acceleration = nullVectorDef := by
  intro n
  induction n with
  | zero => intro p _ hv ha; exact ⟨hv, rfl, ha⟩
  | succ n ih =>
    intro p h0 hv ha
    rw [eulerLoop]
    have hsub := eulerSubstep_static pow dt p h0 hv ha
    have hfields := eulerSubstep_fields pow dt p
    obtain ⟨hv2, hp2, ha2⟩ :=
      ih (Particle_EulerSubstep pow dt p) (hfields.2.2.2.1.trans h0)
        hsub.1 hfields.2.1
    exact ⟨hv2, hp2.trans hsub.2, ha2⟩

/-! ## Helper lemmas about the RK4 and `particle.h` integrators -/

set_option maxHeartbeats 1000000 in
/-- A successful RK4 step advances the particle clock by exactly the
duration (two half-steps of `0.5 * duration` each). -/
theorem rkIntegrate_time (p : Particle) (d : ℝ) (hd : 0 < d) :
    ∃ q, Particle_RKIntegrate p d = .ok q ∧ q.time = p.time + d := by
  unfold Particle_RKIntegrate
  rw [if_neg (not_le.mpr hd)]
  refine ⟨_, rfl, ?_⟩
  simp only []
  ring

set_option maxHeartbeats 1000000 in
/-- The RK4 integrator never writes the inverse mass. -/
theorem rkIntegrate_inverseMass (p : Particle) (d : ℝ) (q : Particle)
    (h : Particle_RKIntegrate p d = .ok q) : q.inverseMass = p.inverseMass := by
  unfold Particle_RKIntegrate at h
  by_cases hd : d ≤ 0
  · rw [if_pos hd] at h; cases h
  · rw [if_neg hd] at h
    cases h
    rfl

/-- A successful call of the `particle.h` single-step integrator returns
success and a particle whose resultant force and acceleration have been
reset to zero (lines 627-635 of `particle.h`). -/
theorem particleH_integrate_resets (pow : ℝ → ℝ → ℝ) (p : Particle) (d : ℝ)
    (hd : 0 < d) :
    (ParticleH.Particle_Integrate pow p d).1 = .PARTICLE_SUCCESS ∧
    (ParticleH.Particle_Integrate pow p d).2.resultantForce = nullVectorDef ∧
    (ParticleH.Particle_Integrate pow p d).2.acceleration = nullVectorDef := by
  unfold ParticleH.Particle_Integrate
  rw [if_neg (not_le.mpr hd)]
  exact ⟨rfl, rfl, rfl⟩

/-- First component of `applyGenerator` only changes `resultantForce`. -/
theorem applyGenerator_fst_inverseMass (p : Particle) (g : ForceGenerator) :
    (ParticleH.applyGenerator p g).1.inverseMass = p.inverseMass := by
  unfold ParticleH.applyGenerator
  by_cases h1 : g.identity = .SPRING <;> by_cases h2 : g.springNotAlreadyUsed = true <;>
    simp [h1, h2]

/-- First component of `forceLoop` only changes `resultantForce`. -/
theorem forceLoop_fst_inverseMass :
    ∀ (gs : List ForceGenerator) (p : Particle),
      (ParticleH.forceLoop p gs).1.inverseMass = p.inverseMass := by
  intro gs
  induction gs with
  | nil => intro p; rfl
  | cons g gs ih =>
    intro p
    rw [ParticleH.forceLoop]
    split
    · simp only []
      rw [ih, applyGenerator_fst_inverseMass]
    · simp only []
      rw [ih]

/-- The `particle.h` integrator never writes the inverse mass. -/
theorem particleH_integrate_inverseMass (pow : ℝ → ℝ → ℝ) (p : Particle)
    (d : ℝ) : (ParticleH.Particle_Integrate pow p d).2.inverseMass = p.inverseMass := by
  unfold ParticleH.Particle_Integrate
  by_cases hd : d ≤ 0
  · rw [if_pos hd]
  · rw [if_neg hd]
    simp only []
    split <;> simp [forceLoop_fst_inverseMass]

/-! ## Concrete fixtures used by witnesses and counterexamples -/

/-- A unit-mass, undamped particle state at the origin with unique ID 0. -/
def psZero : PState :=
  ⟨nullVectorDef, nullVectorDef, nullVectorDef, nullVectorDef, 1, 1, 0, 0⟩

/-- The same state under unique ID 1, for the second end of a pair. -/
def psZeroB : PState := { psZero with uniqueID := 1 }

/-! ## Claims -/

/-- C6: particle creation fails with `InvalidMass` when `mass ≤ 0`
(producing no particle), with `InvalidDamping` when the mass is valid but
the damping lies outside `[0,1]`, and with `InvalidTime` when those are
valid but `startTime < 0`; otherwise it returns a particle whose force
registry is empty with initial capacity 8 and whose resultant force is the
zero vector (validation is performed in that order, as in the source). -/
theorem C6_create_validation (position velocity acceleration : Vector)
    (mass damping startTime : ℝ) (uid : ℕ) :
    (mass ≤ 0 →
      Particle_Create position velocity acceleration mass damping startTime uid =
        .error .PARTICLE_ERROR_INVALID_MASS) ∧
    (0 < mass → (damping < 0 ∨ damping > 1) →
      Particle_Create position velocity acceleration mass damping startTime uid =
        .error .PARTICLE_ERROR_INVALID_DAMPING) ∧
    (0 < mass → 0 ≤ damping → damping ≤ 1 → startTime < 0 →
      Particle_Create position velocity acceleration mass damping startTime uid =
        .error .PARTICLE_ERROR_INVALID_TIME) ∧
    (0 < mass → 0 ≤ damping → damping ≤ 1 → 0 ≤ startTime →
      ∃ p, Particle_Create position velocity acceleration mass damping startTime uid =
            .ok p ∧
        p.forceRegistry = [] ∧ p.forceCapacity = 8 ∧
        p.resultantForce = nullVectorDef ∧ p.position = position ∧
        p.velocity = velocity ∧ p.acceleration = acceleration ∧
        p.inverseMass = 1 / mass ∧ p.damping = damping ∧ p.time = startTime) := by
  refine ⟨?_, ?_, ?_, ?_⟩
  · intro h
    rw [Particle_Create, if_pos h]
  · intro hm hd
    rw [Particle_Create, if_neg (not_le.mpr hm), if_pos hd]
  · intro hm hd0 hd1 ht
    rw [Particle_Create, if_neg (not_le.mpr hm),
      if_neg (by rw [not_or]; exact ⟨not_lt.mpr hd0, not_lt.mpr hd1⟩), if_pos ht]
  · intro hm hd0 hd1 ht
    have h : Particle_Create position velocity acceleration mass damping startTime uid =
        .ok { position := position, velocity := velocity,
              acceleration := acceleration, resultantForce := nullVectorDef,
              inverseMass := 1 / mass, damping := damping, time := startTime,
              forceRegistry := [], forceCapacity := 8, uniqueID := uid } := by
      rw [Particle_Create, if_neg (not_le.mpr hm),
        if_neg (by rw [not_or]; exact ⟨not_lt.mpr hd0, not_lt.mpr hd1⟩),
        if_neg (not_lt.mpr ht)]
    exact ⟨_, h, rfl, rfl, rfl, rfl, rfl, rfl, rfl, rfl, rfl⟩

/-- Witness for C6 at concrete inputs: mass 0 is rejected with
`InvalidMass`, and a valid construction yields the stated fresh state. -/
theorem C6_create_validation_witness :
    (Particle_Create nullVectorDef nullVectorDef nullVectorDef 0 (1/2) 0 0 =
      .error .PARTICLE_ERROR_INVALID_MASS) ∧
    (∃ p, Particle_Create nullVectorDef nullVectorDef nullVectorDef 2 1 3 7 =
          .ok p ∧
      p.forceRegistry = [] ∧ p.forceCapacity = 8 ∧
      p.resultantForce = nullVectorDef ∧ p.position = nullVectorDef ∧
      p.velocity = nullVectorDef ∧ p.acceleration = nullVectorDef ∧
      p.inverseMass = 1 / 2 ∧ p.damping = 1 ∧ p.time = 3) := by
  constructor
  · exact (C6_create_validation nullVectorDef nullVectorDef nullVectorDef
      0 (1/2) 0 0).1 le_rfl
  · exact (C6_create_validation nullVectorDef nullVectorDef nullVectorDef
      2 1 3 7).2.2.2 (by norm_num) (by norm_num) (by norm_num) (by norm_num)

/-- C7: a spring law (two-body or anchored) evaluated at separation
exactly equal to the rest length with zero relative velocity returns the
zero vector. -/
theorem C7_spring_equilibrium :
    (∀ (particle : PState) (param : SpringParameters),
      magnitude (vecAdd particle.position (invert (springOtherPosition particle param))) =
        param.restLength →
      particle.velocity = springOtherVelocity particle param →
      Particle_SpringForce particle (some param) = nullVectorDef) ∧
    (∀ (particle : PState) (params : AnchoredSpringParameters),
      magnitude (vecAdd particle.position (invert params.anchor)) = params.restLength →
      particle.velocity = nullVectorDef →
      Particle_AnchoredSpringForce particle (some params) = nullVectorDef) := by
  constructor
  · intro particle param hmag hvel
    unfold Particle_SpringForce
    simp only []
    rw [hvel, vecAdd_invert_self, dotProduct_null_right, hmag, sub_self]
    simp [scale_zero]
  · intro particle params hmag hvel
    unfold Particle_AnchoredSpringForce
    simp only []
    rw [hvel, dotProduct_null_right, hmag, sub_self]
    simp [scale_zero]

/-- Witness for C7: both ends of a pair at the same point with rest length
0 and zero velocities, and the anchored law at its anchor. -/
theorem C7_spring_equilibrium_witness :
    Particle_SpringForce psZero (some ⟨psZero, psZeroB, 1, 1, 0⟩) = nullVectorDef ∧
    Particle_AnchoredSpringForce psZero (some ⟨nullVectorDef, 1, 1, 0⟩) =
      nullVectorDef := by
  constructor
  · refine C7_spring_equilibrium.1 psZero ⟨psZero, psZeroB, 1, 1, 0⟩ ?_ ?_
    · norm_num [psZero, psZeroB, springOtherPosition, vecAdd, invert,
        nullVectorDef, magnitude]
    · simp [psZero, psZeroB, springOtherVelocity]
  · refine C7_spring_equilibrium.2 psZero ⟨nullVectorDef, 1, 1, 0⟩ ?_ rfl
    norm_num [psZero, vecAdd, invert, nullVectorDef, magnitude]

/-- Core fact for taut bungees: scaling the normalized direction by a
negative scalar yields a nonzero vector whose dot product with the
direction is negative. -/
theorem bungee_taut_core (d : Vector) (F : ℝ) (hmagpos : 0 < magnitude d)
    (hF : F < 0) :
    scale (normalize d) F ≠ nullVectorDef ∧
    dotProduct (scale (normalize d) F) d < 0 := by
  have hs : 0 < d.x * d.x + d.y * d.y + d.z * d.z := (magnitude_pos_iff d).mp hmagpos
  have hnorm : normalize d = scale d (1 / magnitude d) := by
    rw [normalize, if_pos hmagpos]
  have hdot : dotProduct (scale (normalize d) F) d =
      F * ((1 / magnitude d) * dotProduct d d) := by
    rw [hnorm, dotProduct_scale_left, dotProduct_scale_left]
  have hdd : 0 < dotProduct d d := by rw [dotProduct_self]; exact hs
  have hneg : dotProduct (scale (normalize d) F) d < 0 := by
    rw [hdot]
    exact mul_neg_of_neg_of_pos hF (mul_pos (one_div_pos.mpr hmagpos) hdd)
  refine ⟨?_, hneg⟩
  intro h
  rw [h, dotProduct_null_left] at hneg
  exact lt_irrefl 0 hneg

/-- C3 (amended): a bungee law (two-body elastic or anchored) at
separation at most the rest length returns the zero vector for **all**
velocities; at separation strictly greater than the rest length, **with
zero relative velocity** (zero velocity for the anchored law), and with a
positive spring constant and nonnegative rest length, it returns a
nonzero force directed to reduce the separation (negative dot product
with the separation vector).  The zero-relative-velocity restriction on
the stretched case is forced by the damping term of the law, which can
cancel the spring term for a suitably chosen velocity (see the
counterexample). -/
theorem C3_bungee_one_sidedness_amended :
    (∀ (particle : PState) (param : ElasticBungeeParameters),
      magnitude (vecAdd particle.position (invert (springOtherPosition particle param))) ≤
        param.restLength →
      Particle_ElasticBungeeForce particle (some param) = nullVectorDef) ∧
    (∀ (particle : PState) (param : ElasticBungeeParameters),
      0 < param.springConstant → 0 ≤ param.restLength →
      param.restLength <
        magnitude (vecAdd particle.position (invert (springOtherPosition particle param))) →
      particle.velocity = springOtherVelocity particle param →
      Particle_ElasticBungeeForce particle (some param) ≠ nullVectorDef ∧
      dotProduct (Particle_ElasticBungeeForce particle (some param))
        (vecAdd particle.position (invert (springOtherPosition particle param))) < 0) ∧
    (∀ (particle : PState) (params : AnchoredBungeeParameters),
      magnitude (vecAdd particle.position (invert params.anchor)) ≤ params.restLength →
      Particle_AnchoredBungeeForce particle (some params) = nullVectorDef) ∧
    (∀ (particle : PState) (params : AnchoredBungeeParameters),
      0 < params.springConstant → 0 ≤ params.restLength →
      params.restLength < magnitude (vecAdd particle.position (invert params.anchor)) →
      particle.velocity = nullVectorDef →
      Particle_AnchoredBungeeForce particle (some params) ≠ nullVectorDef ∧
      dotProduct (Particle_AnchoredBungeeForce particle (some params))
        (vecAdd particle.position (invert params.anchor)) < 0) := by
  refine ⟨?_, ?_, ?_, ?_⟩
  · intro particle param hmag
    unfold Particle_ElasticBungeeForce
    simp only []
    rw [if_pos (sub_nonpos.mpr hmag)]
  · intro particle param hk hr hmag hvel
    unfold Particle_ElasticBungeeForce
    simp only []
    rw [hvel, vecAdd_invert_self, dotProduct_null_right,
      if_neg (by rw [not_le]; exact sub_pos.mpr hmag), zero_div, mul_zero, sub_zero]
    have hmagpos : 0 <
        magnitude (vecAdd particle.position (invert (springOtherPosition particle param))) :=
      lt_of_le_of_lt hr hmag
    refine bungee_taut_core _ _ hmagpos ?_
    rw [neg_mul]
    exact neg_lt_zero.mpr (mul_pos hk (sub_pos.mpr hmag))
  · intro particle params hmag
    unfold Particle_AnchoredBungeeForce
    simp only []
    rw [if_pos (sub_nonpos.mpr hmag)]
  · intro particle params hk hr hmag hvel
    unfold Particle_AnchoredBungeeForce
    simp only []
    rw [hvel, dotProduct_null_right,
      if_neg (by rw [not_le]; exact sub_pos.mpr hmag), zero_div, mul_zero, sub_zero]
    have hmagpos : 0 < magnitude (vecAdd particle.position (invert params.anchor)) :=
      lt_of_le_of_lt hr hmag
    refine bungee_taut_core _ _ hmagpos ?_
    rw [neg_mul]
    exact neg_lt_zero.mpr (mul_pos hk (sub_pos.mpr hmag))

theorem sqrt_four : Real.sqrt 4 = 2 := by
  rw [show (4:ℝ) = 2 ^ 2 by norm_num]
  exact Real.sqrt_sq (by norm_num)

/-- A particle state stretched a unit beyond rest length along x, moving
toward its partner at exactly the speed that makes the bungee damping
term cancel the spring term. -/
def psBungee : PState :=
  { psZero with position := vectorDef 2 0 0, velocity := vectorDef (-1) 0 0 }

/-- A particle state 2 units along x, at rest. -/
def psTaut : PState := { psZero with position := vectorDef 2 0 0 }

/-- The bungee parameter block of the counterexample: spring constant 1,
damping coefficient 1, rest length 1, tied between `psBungee` and the
origin particle `psZeroB`. -/
def cexParam : ElasticBungeeParameters := ⟨psBungee, psZeroB, 1, 1, 1⟩

/-- Counterexample to C3 as stated: this elastic bungee is strictly
stretched (separation 2 > rest length 1) with positive spring constant,
yet the law returns the zero vector, because the damping term
`-c·(d·relVel)/|d|` cancels the spring term for this velocity. -/
theorem C3_bungee_one_sidedness_counterexample :
    cexParam.restLength <
      magnitude (vecAdd psBungee.position (invert (springOtherPosition psBungee cexParam))) ∧
    0 < cexParam.springConstant ∧
    Particle_ElasticBungeeForce psBungee (some cexParam) = nullVectorDef := by
  have hone : springOtherPosition psBungee cexParam = nullVectorDef := by
    simp [springOtherPosition, cexParam, psBungee, psZero, psZeroB]
  have hvel : springOtherVelocity psBungee cexParam = nullVectorDef := by
    simp [springOtherVelocity, cexParam, psBungee, psZero, psZeroB]
  have hd : vecAdd psBungee.position (invert (springOtherPosition psBungee cexParam)) =
      vectorDef 2 0 0 := by
    rw [hone]
    simp [vecAdd, invert, nullVectorDef, psBungee, psZero, vectorDef]
  have hmag : magnitude (vectorDef 2 0 0) = 2 := by
    rw [magnitude, vectorDef]
    norm_num
    exact sqrt_four
  refine ⟨?_, ?_, ?_⟩
  · rw [hd, hmag]
    norm_num [cexParam]
  · norm_num [cexParam]
  · unfold Particle_ElasticBungeeForce
    simp only []
    rw [hd, hvel, hmag]
    have hcond : ¬((2:ℝ) - cexParam.restLength ≤ 0) := by norm_num [cexParam]
    rw [if_neg hcond]
    have hscalar :
        -cexParam.springConstant * (2 - cexParam.restLength) -
          cexParam.dampingCoeff *
            (dotProduct (vectorDef 2 0 0)
              (vecAdd psBungee.velocity (invert nullVectorDef)) / 2) = 0 := by
      norm_num [cexParam, dotProduct, vectorDef, vecAdd, invert, nullVectorDef,
        psBungee, psZero]
    rw [hscalar, scale_zero]

/-- Witness for the amended C3: a slack bungee (separation 2, rest length
5) returns the zero vector, and a taut bungee (separation 2, rest length
1) at zero relative velocity returns a force with negative dot product
against the separation vector. -/
theorem C3_bungee_one_sidedness_witness :
    Particle_ElasticBungeeForce psTaut (some ⟨psTaut, psZeroB, 1, 1, 5⟩) =
      nullVectorDef ∧
    (Particle_ElasticBungeeForce psTaut (some ⟨psTaut, psZeroB, 1, 1, 1⟩) ≠
        nullVectorDef ∧
      dotProduct (Particle_ElasticBungeeForce psTaut (some ⟨psTaut, psZeroB, 1, 1, 1⟩))
        (vecAdd psTaut.position
          (invert (springOtherPosition psTaut ⟨psTaut, psZeroB, 1, 1, 1⟩))) < 0) := by
  have hd5 : vecAdd psTaut.position
      (invert (springOtherPosition psTaut ⟨psTaut, psZeroB, 1, 1, 5⟩)) =
      vectorDef 2 0 0 := by
    simp [springOtherPosition, psTaut, psZero, psZeroB, vecAdd, invert,
      nullVectorDef, vectorDef]
  have hd1 : vecAdd psTaut.position
      (invert (springOtherPosition psTaut ⟨psTaut, psZeroB, 1, 1, 1⟩)) =
      vectorDef 2 0 0 := by
    simp [springOtherPosition, psTaut, psZero, psZeroB, vecAdd, invert,
      nullVectorDef, vectorDef]
  have hmag : magnitude (vectorDef 2 0 0) = 2 := by
    rw [magnitude, vectorDef]
    norm_num
    exact sqrt_four
  constructor
  · refine C3_bungee_one_sidedness_amended.1 psTaut ⟨psTaut, psZeroB, 1, 1, 5⟩ ?_
    rw [hd5, hmag]
    norm_num
  · refine C3_bungee_one_sidedness_amended.2.1 psTaut ⟨psTaut, psZeroB, 1, 1, 1⟩
      (by norm_num) (by norm_num) ?_ ?_
    · rw [hd1, hmag]
      norm_num
    · simp [springOtherVelocity, psTaut, psZero, psZeroB]

/-- A concrete stand-in for the C library `pow` in closed statements
(only ever applied at `pow(1, d)` there, where the C function returns 1). -/
def powOne : ℝ → ℝ → ℝ := fun _ _ => 1

/-- A unit-mass, undamped particle at the origin with an empty registry. -/
def particleZero : Particle :=
  ⟨nullVectorDef, nullVectorDef, nullVectorDef, nullVectorDef, 1, 1, 0, [], 8, 0⟩

/-- C4: a successful `integrate(p, d)` with `d > 0` increases `p.time` by
exactly `d`: the Euler variant sums its `N_STEPS` equal sub-steps of
`d / N_STEPS`, the RK4 variant its two half-steps of `0.5 * d`. -/
theorem C4_time_advance :
    (∀ (pow : ℝ → ℝ → ℝ) (p : Particle) (d : ℝ), 0 < d →
      ∃ q, Particle_EulerIntegrate pow p d = .ok q ∧ q.time = p.time + d) ∧
    (∀ (p : Particle) (d : ℝ), 0 < d →
      ∃ q, Particle_RKIntegrate p d = .ok q ∧ q.time = p.time + d) := by
  constructor
  · intro pow p d hd
    have h : Particle_EulerIntegrate pow p d =
        .ok (eulerLoop pow (d / (N_STEPS : ℝ)) N_STEPS p) := by
      unfold Particle_EulerIntegrate
      rw [if_neg (not_le.mpr hd)]
    refine ⟨_, h, ?_⟩
    rw [eulerLoop_time]
    simp only [N_STEPS]
    push_cast
    ring
  · intro p d hd
    exact rkIntegrate_time p d hd

/-- Witness for C4 at duration 1 on a fresh particle. -/
theorem C4_time_advance_witness :
    (0:ℝ) < 1 ∧
    (∃ q, Particle_EulerIntegrate powOne particleZero 1 = .ok q ∧
      q.time = particleZero.time + 1) ∧
    (∃ q, Particle_RKIntegrate particleZero 1 = .ok q ∧
      q.time = particleZero.time + 1) :=
  ⟨by norm_num, C4_time_advance.1 powOne particleZero 1 (by norm_num),
    C4_time_advance.2 particleZero 1 (by norm_num)⟩

/-- C9: after every successful integrate call with positive duration —
for any particle, any force generators — the resultant force and the
acceleration are both reset to the zero vector, in the sub-stepped Euler
integrator of `part_003` and in the single-step integrator of
`particle.h` alike. -/
theorem C9_integrate_resets_force_and_acceleration :
    (∀ (pow : ℝ → ℝ → ℝ) (p : Particle) (d : ℝ), 0 < d →
      ∃ q, Particle_EulerIntegrate pow p d = .ok q ∧
        q.resultantForce = nullVectorDef ∧ q.acceleration = nullVectorDef) ∧
    (∀ (pow : ℝ → ℝ → ℝ) (p : Particle) (d : ℝ), 0 < d →
      (ParticleH.Particle_Integrate pow p d).1 = .PARTICLE_SUCCESS ∧
      (ParticleH.Particle_Integrate pow p d).2.resultantForce = nullVectorDef ∧
      (ParticleH.Particle_Integrate pow p d).2.acceleration = nullVectorDef) := by
  constructor
  · intro pow p d hd
    have h : Particle_EulerIntegrate pow p d =
        .ok (eulerLoop pow (d / (N_STEPS : ℝ)) N_STEPS p) := by
      unfold Particle_EulerIntegrate
      rw [if_neg (not_le.mpr hd)]
    refine ⟨_, h, ?_, ?_⟩
    · exact (eulerLoop_resets pow (d / (N_STEPS : ℝ)) 99 p).2
    · exact (eulerLoop_resets pow (d / (N_STEPS : ℝ)) 99 p).1
  · intro pow p d hd
    exact particleH_integrate_resets pow p d hd

/-- Witness for C9 at duration 1 on a fresh particle. -/
theorem C9_integrate_resets_witness :
    (0:ℝ) < 1 ∧
    (∃ q, Particle_EulerIntegrate powOne particleZero 1 = .ok q ∧
      q.resultantForce = nullVectorDef ∧ q.acceleration = nullVectorDef) ∧
    ((ParticleH.Particle_Integrate powOne particleZero 1).1 = .PARTICLE_SUCCESS ∧
      (ParticleH.Particle_Integrate powOne particleZero 1).2.resultantForce =
        nullVectorDef ∧
      (ParticleH.Particle_Integrate powOne particleZero 1).2.acceleration =
        nullVectorDef) :=
  ⟨by norm_num,
    C9_integrate_resets_force_and_acceleration.1 powOne particleZero 1 (by norm_num),
    C9_integrate_resets_force_and_acceleration.2 powOne particleZero 1 (by norm_num)⟩

/-- C2 (amended): the Euler integrator applied to a static particle
(`inverseMass = 0`) with positive duration ends with **zero**
acceleration — the caller-set acceleration is consumed into the velocity
by the first sub-step and reset, not preserved — and, when the initial
velocity and acceleration are both zero, velocity stays zero and the
position does not move, whatever force generators are attached; the
gravity law returns the zero vector for a static particle. -/
theorem C2_static_invariance_amended :
    (∀ (pow : ℝ → ℝ → ℝ) (p : Particle) (d : ℝ), p.inverseMass = 0 → 0 < d →
      ∃ q, Particle_EulerIntegrate pow p d = .ok q ∧
        q.acceleration = nullVectorDef ∧
        (p.velocity = nullVectorDef → p.acceleration = nullVectorDef →
          q.velocity = nullVectorDef ∧ q.position = p.position)) ∧
    (∀ particle : PState, particle.inverseMass = 0 →
      Particle_GravityForce particle = nullVectorDef) := by
  constructor
  · intro pow p d h0 hd
    have h : Particle_EulerIntegrate pow p d =
        .ok (eulerLoop pow (d / (N_STEPS : ℝ)) N_STEPS p) := by
      unfold Particle_EulerIntegrate
      rw [if_neg (not_le.mpr hd)]
    refine ⟨_, h, (eulerLoop_resets pow (d / (N_STEPS : ℝ)) 99 p).1, ?_⟩
    intro hv ha
    obtain ⟨hv2, hp2, _⟩ :=
      eulerLoop_static_zero pow (d / (N_STEPS : ℝ)) N_STEPS p h0 hv ha
    exact ⟨hv2, hp2⟩
  · intro particle h0
    rw [Particle_GravityForce, if_pos h0]

/-- A static (infinite-mass) particle with a caller-set acceleration. -/
def psStatic : Particle :=
  { particleZero with inverseMass := 0, acceleration := vectorDef 0 5 0 }

/-- Counterexample to C2 as stated: for this static particle the
caller-set acceleration `(0, 5, 0)` does **not** stay at its value across
`integrate` — the integrator resets the acceleration to zero at the end
of every sub-step. -/
theorem C2_static_invariance_counterexample :
    psStatic.inverseMass = 0 ∧ (0:ℝ) < 1 ∧
    ∃ q, Particle_EulerIntegrate powOne psStatic 1 = .ok q ∧
      q.acceleration ≠ psStatic.acceleration := by
  refine ⟨rfl, by norm_num, ?_⟩
  have h : Particle_EulerIntegrate powOne psStatic 1 =
      .ok (eulerLoop powOne (1 / (N_STEPS : ℝ)) N_STEPS psStatic) := by
    unfold Particle_EulerIntegrate
    rw [if_neg (by norm_num)]
  refine ⟨_, h, ?_⟩
  have hacc : (eulerLoop powOne (1 / (N_STEPS : ℝ)) N_STEPS psStatic).acceleration =
      nullVectorDef :=
    (eulerLoop_resets powOne (1 / (N_STEPS : ℝ)) 99 psStatic).1
  rw [hacc]
  intro hcontra
  have : (0:ℝ) = 5 := congrArg Vector.y hcontra
  norm_num at this

/-- A static particle at rest with zero acceleration. -/
def psStaticZero : Particle := { particleZero with inverseMass := 0 }

/-- Witness for the amended C2 on a concrete static particle at rest. -/
theorem C2_static_invariance_witness :
    (∃ q, Particle_EulerIntegrate powOne psStaticZero 1 = .ok q ∧
      q.acceleration = nullVectorDef ∧
      (psStaticZero.velocity = nullVectorDef →
        psStaticZero.acceleration = nullVectorDef →
        q.velocity = nullVectorDef ∧ q.position = psStaticZero.position)) ∧
    Particle_GravityForce { psZero with inverseMass := 0 } = nullVectorDef :=
  ⟨C2_static_invariance_amended.1 powOne psStaticZero 1 rfl (by norm_num),
    C2_static_invariance_amended.2 { psZero with inverseMass := 0 } rfl⟩

/-- A valid anchored spring/bungee parameter block (anchor at the origin,
spring constant 1, damping coefficient 1, rest length 1). -/
def aspParam : AnchoredSpringParameters := ⟨nullVectorDef, 1, 1, 1⟩

/-- C5 (code bug): with a non-null particle, a non-null parameter block
and times `≥ 0`, **both** anchored convenience constructors fail and
register nothing: `Particle_AddAnchoredSpring` rejects every non-null
parameter block with `INVALID_PARAM` (its null check is written without
the negation), and `Particle_AddAnchoredBungee` always gets
`INVALID_FORCE_ID` back from `Particle_AddForce` because
`ANCHORED_BUNGEE` (7) is declared after `TOTAL_TYPES` (6) in the
`ForceIdentifier` enumeration. -/
theorem C5_add_anchored_constructors_fail :
    Particle_AddAnchoredSpring particleZero nullVectorDef (some aspParam) 0 1 =
      (.PARTICLE_ERROR_INVALID_PARAM, particleZero) ∧
    Particle_AddAnchoredBungee particleZero nullVectorDef (some aspParam) 0 1 =
      (.PARTICLE_ERROR_INVALID_FORCE_ID, particleZero) := by
  constructor
  · rw [Particle_AddAnchoredSpring, if_pos (by simp)]
  · rw [Particle_AddAnchoredBungee, if_neg (by simp)]
    rw [Particle_AddForce, if_neg (by norm_num), if_pos (by norm_num [idVal])]

/-- C8 (code bug): the `vector.h` kernel behaves as specified —
`scale` multiplies componentwise — but the `core.h` variant of `scale`
computes `x *= x * scalar`, so `scale((2,0,0), 3)` yields `(12,0,0)`
instead of `(6,0,0)`, and `core.h`'s `normalize` consequently leaves
`(2,0,0)` (magnitude 2) unchanged instead of scaling it by `1/2`. -/
theorem C8_core_scale_diverges :
    scale (vectorDef 2 0 0) 3 = vectorDef 6 0 0 ∧
    Core.scale (vectorDef 2 0 0) 3 = vectorDef 12 0 0 ∧
    vectorDef 12 0 0 ≠ vectorDef 6 0 0 ∧
    magnitude (vectorDef 2 0 0) = 2 ∧
    Core.normalize (vectorDef 2 0 0) = vectorDef 2 0 0 ∧
    Core.normalize (vectorDef 2 0 0) ≠
      scale (vectorDef 2 0 0) (1 / magnitude (vectorDef 2 0 0)) := by
  have hmag : magnitude (vectorDef 2 0 0) = 2 := by
    rw [magnitude, vectorDef]
    norm_num
    exact sqrt_four
  have hcore : Core.normalize (vectorDef 2 0 0) = vectorDef 2 0 0 := by
    rw [Core.normalize, if_pos (by rw [hmag]; norm_num), hmag]
    norm_num [Core.scale, vectorDef]
  refine ⟨?_, ?_, ?_, hmag, hcore, ?_⟩
  · norm_num [scale, vectorDef]
  · norm_num [Core.scale, vectorDef]
  · intro h
    have := congrArg Vector.x h
    norm_num [vectorDef] at this
  · rw [hcore, hmag]
    intro h
    have := congrArg Vector.x h
    norm_num [vectorDef, scale] at this

/-- The gravity registration used by the C1 demonstration: always active
over the window `[0, 1]`. -/
noncomputable def gravGen : ForceGenerator :=
  { function := Particle_GravityForce, identity := .GRAV, startTime := 0,
    endTime := 1, isActive := true, springNotAlreadyUsed := false,
    springForceVal := nullVectorDef }

/-- A unit-mass particle whose registry holds the single active gravity
registration `gravGen`. -/
noncomputable def pDouble : Particle := { particleZero with forceRegistry := [gravGen] }

/-- C1 (code bug): on a particle with one active, in-window gravity
registration, the `particle.h` integrator adds the gravity force **twice**
in its single step — the unconditional re-evaluation after its if/else
(lines 608-609) duplicates the addition — so the step's velocity change is
`2 · g` instead of `g`; the force-accumulation loop of the `part_003`
Euler integrator, by contrast, accumulates exactly one evaluation. -/
theorem C1_particleH_double_adds_forces :
    (ParticleH.Particle_Integrate powOne pDouble 1).2.velocity =
      vectorDef 0 (2 * ACC_DUE_TO_GRAV) 0 ∧
    Particle_GravityForce pDouble.toPState = vectorDef 0 ACC_DUE_TO_GRAV 0 ∧
    (accumulateForces pDouble pDouble.forceRegistry).resultantForce =
      vectorDef 0 ACC_DUE_TO_GRAV 0 := by
  refine ⟨?_, ?_, ?_⟩
  · have hne : ForceIdentifier.GRAV ≠ ForceIdentifier.SPRING := by decide
    norm_num [ParticleH.Particle_Integrate, ParticleH.forceLoop,
      ParticleH.applyGenerator, pDouble, particleZero, gravGen, powOne,
      Particle_GravityForce, Particle_GetMass, Particle.toPState, addScaled,
      scale, vecAdd, invert, nullVectorDef, vectorDef, ACC_DUE_TO_GRAV, hne]
  · norm_num [Particle_GravityForce, Particle_GetMass, Particle.toPState,
      pDouble, particleZero, vectorDef, nullVectorDef, ACC_DUE_TO_GRAV]
  · norm_num [accumulateForces, pDouble, particleZero, gravGen,
      Particle_GravityForce, Particle_GetMass, Particle.toPState, vecAdd,
      nullVectorDef, vectorDef, ACC_DUE_TO_GRAV]

/-! ## Reachability through the public API (for C10) -/

/-- `Particle_AddForce` never writes `inverseMass`. -/
theorem addForce_inverseMass (p : Particle) (force : ForceFn)
    (startTime endTime : ℝ) (identifier : ForceIdentifier) :
    (Particle_AddForce p force startTime endTime identifier).2.inverseMass =
      p.inverseMass := by
  unfold Particle_AddForce
  split
  · rfl
  · split
    · rfl
    · simp only []
      split <;> rfl

/-- `Particle_SetMass` keeps the inverse mass positive. -/
theorem setMass_inverseMass_pos (p : Particle) (mass : ℝ)
    (hp : 0 < p.inverseMass) :
    0 < (Particle_SetMass p mass).2.inverseMass := by
  unfold Particle_SetMass
  split
  · exact hp
  · next h => exact one_div_pos.mpr (not_le.mp h)

/-- A successful `Particle_Create` yields a positive inverse mass. -/
theorem create_ok_inverseMass_pos (position velocity acceleration : Vector)
    (mass damping startTime : ℝ) (uid : ℕ) (p : Particle)
    (h : Particle_Create position velocity acceleration mass damping startTime uid =
      .ok p) : 0 < p.inverseMass := by
  unfold Particle_Create at h
  split at h
  · simp at h
  · split at h
    · simp at h
    · split at h
      · simp at h
      · next hmass _ _ =>
        injection h with h2
        rw [← h2]
        exact one_div_pos.mpr (not_le.mp hmass)

/-- The particles reachable through the public API: created by
`Particle_Create` and closed under mass update, force registration,
registry clearing and integration. (`Particle_AddGrav`, `Particle_AddDrag`
and the pair constructors all mutate the particle exclusively through
`Particle_AddForce`, so they are covered by the `addForce` case.) -/
inductive Reachable : Particle → Prop where
  | create (position velocity acceleration : Vector)
      (mass damping startTime : ℝ) (uid : ℕ) (p : Particle) :
      Particle_Create position velocity acceleration mass damping startTime uid =
        .ok p → Reachable p
  | setMass (p : Particle) (mass : ℝ) : Reachable p →
      Reachable (Particle_SetMass p mass).2
  | addForce (p : Particle) (force : ForceFn) (startTime endTime : ℝ)
      (identifier : ForceIdentifier) : Reachable p →
      Reachable (Particle_AddForce p force startTime endTime identifier).2
  | addAnchoredSpring (p : Particle) (anchor : Vector)
      (params : Option AnchoredSpringParameters) (startTime endTime : ℝ) :
      Reachable p →
      Reachable (Particle_AddAnchoredSpring p anchor params startTime endTime).2
  | addAnchoredBungee (p : Particle) (anchor : Vector)
      (params : Option AnchoredBungeeParameters) (startTime endTime : ℝ) :
      Reachable p →
      Reachable (Particle_AddAnchoredBungee p anchor params startTime endTime).2
  | clearForces (p : Particle) : Reachable p → Reachable (Particle_ClearForces p)
  | eulerIntegrate (pow : ℝ → ℝ → ℝ) (p q : Particle) (d : ℝ) : Reachable p →
      Particle_EulerIntegrate pow p d = .ok q → Reachable q
  | rkIntegrate (p q : Particle) (d : ℝ) : Reachable p →
      Particle_RKIntegrate p d = .ok q → Reachable q

/-- C10: every particle reachable through the public API has strictly
positive inverse mass — `Particle_Create` rejects `mass ≤ 0` and sets
`inverseMass = 1/mass > 0`, `Particle_SetMass` rejects `mass ≤ 0`, and no
other operation writes the field — so `Particle_IsStatic` reports `false`
for all of them (and the static branches of the force laws and the
integrators cannot fire on API-constructed particles). -/
theorem C10_api_particles_never_static (p : Particle) (h : Reachable p) :
    0 < p.inverseMass ∧ Particle_IsStatic p = false := by
  have key : 0 < p.inverseMass := by
    induction h with
    | create position velocity acceleration mass damping startTime uid p hc =>
      exact create_ok_inverseMass_pos position velocity acceleration mass damping
        startTime uid p hc
    | setMass p mass hp ih => exact setMass_inverseMass_pos p mass ih
    | addForce p force startTime endTime identifier hp ih =>
      rw [addForce_inverseMass]; exact ih
    | addAnchoredSpring p anchor params startTime endTime hp ih =>
      unfold Particle_AddAnchoredSpring
      split
      · exact ih
      · rw [addForce_inverseMass]; exact ih
    | addAnchoredBungee p anchor params startTime endTime hp ih =>
      unfold Particle_AddAnchoredBungee
      split
      · exact ih
      · rw [addForce_inverseMass]; exact ih
    | clearForces p hp ih => exact ih
    | eulerIntegrate pow p q d hp he ih =>
      unfold Particle_EulerIntegrate at he
      split at he
      · simp at he
      · injection he with h2
        rw [← h2, eulerLoop_inverseMass]
        exact ih
    | rkIntegrate p q d hp hr ih =>
      rw [rkIntegrate_inverseMass p d q hr]
      exact ih
  refine ⟨key, ?_⟩
  unfold Particle_IsStatic
  exact decide_eq_false key.ne'

/-- Witness for C10: the particle produced by a concrete valid
`Particle_Create` call is non-static. -/
theorem C10_api_particles_never_static_witness :
    0 < particleZero.inverseMass ∧ Particle_IsStatic particleZero = false := by
  have hc : Particle_Create nullVectorDef nullVectorDef nullVectorDef 1 1 0 0 =
      .ok particleZero := by
    rw [Particle_Create, if_neg (by norm_num), if_neg (by norm_num),
      if_neg (by norm_num)]
    norm_num [particleZero]
  exact C10_api_particles_never_static particleZero
    (Reachable.create nullVectorDef nullVectorDef nullVectorDef 1 1 0 0
      particleZero hc)

end Engine
